import Mathlib

/-!
# dutch: a touch replacement (src/dutch.c)

A shallow embedding of `touch_file` and `main` from `src/dutch.c`.

The C program talks to the operating system through libc.  The libc calls
are modelled over an explicit `World`:

* the file system is a flat map from path names to nodes; a node is a regular
  file or a symbolic link, each carrying its own access and modification time
  in whole seconds (`time_t`);
* `stat`, `utime`, `utimes` and `fopen` follow symbolic links (at most
  `MAXSYMLINKS` of them), `lstat` does not;
* failures that depend on permissions are given by two oracles of the world,
  `deny_create` and `deny_utime`;
* `time(NULL)` reads a clock that may show a different value at every reading;
* `strptime`, `mktime` and `popen` are oracles collected in `Libc`;
* `exit(n)` is the `Run.exit n` outcome, which carries the world at that
  moment.
-/

namespace Dutch

/-! ## Data model -/

/-- The `struct utimbuf` of `utime.h`: a pair of `time_t` values. -/
structure Utimbuf where
  actime : Int
  modtime : Int
deriving DecidableEq, Repr

/-- The `struct timeval` of `sys/time.h`. -/
structure Timeval where
  tv_sec : Int
  tv_usec : Int
deriving DecidableEq, Repr

/-- The `struct tm` of `time.h`. -/
structure Tm where
  tm_sec : Int
  tm_min : Int
  tm_hour : Int
  tm_mday : Int
  tm_mon : Int
  tm_year : Int
  tm_wday : Int
  tm_yday : Int
  tm_isdst : Int
deriving DecidableEq, Repr

/-- A file-system object: a regular file or a symbolic link, with its own
access and modification time. -/
inductive Node where
  | file (size : Nat) (atime mtime : Int)
  | symlink (target : String) (atime mtime : Int)
deriving DecidableEq, Repr

/-- The fields of `struct stat` that the program or the claims look at. -/
structure Stat where
  is_regular : Bool
  st_size : Nat
  st_atime : Int
  st_mtime : Int
deriving DecidableEq, Repr

/-- The state of the machine the process runs on. -/
structure World where
  /-- the file system: path name to node -/
  fs : String → Option Node
  /-- names at which creating a file fails (permissions, missing parent) -/
  deny_create : String → Bool
  /-- names of files whose times the process may not set -/
  deny_utime : String → Bool
  /-- the successive readings of the system clock -/
  clock : Nat → Int
  /-- how many clock readings have been taken -/
  ticks : Nat
  /-- lines written to standard error by the program -/
  err : List String
  /-- lines written to standard output or to the pager by the program -/
  out : List String

/-- The locale- and environment-dependent library functions, as oracles. -/
structure Libc where
  /-- the call `strptime(s, fmt, &tm)`: whether it returned non-NULL, and the
  contents of `tm` afterwards -/
  strptime : String → String → Tm → Bool × Tm
  /-- the call `mktime(&tm)`: the returned `time_t`, and the normalised `tm` -/
  mktime : Tm → Int × Tm
  /-- whether `popen("less", "w")` succeeds -/
  popen_ok : Bool
  /-- the indeterminate contents of an uninitialised `struct stat` -/
  uninit_stat : Stat

/-- The outcome of running a piece of the program: it either returns a value,
or it has called `exit(code)`. -/
inductive Run (α : Type) where
  | ret (a : α) (w : World)
  | exit (code : Nat) (w : World)

/-- The world an outcome ends in. -/
def Run.world {α : Type} : Run α → World
  | .ret _ w => w
  | .exit _ w => w

/-- The exit code, when the outcome is a call of `exit`. -/
def Run.code {α : Type} : Run α → Option Nat
  | .ret _ _ => none
  | .exit c _ => some c

/-- The value an outcome returns, when it returns. -/
def Run.val? {α : Type} : Run α → Option α
  | .ret a _ => some a
  | .exit _ _ => none

/-! ## The libc calls -/

/-- The limit on the number of symbolic links followed in one path
resolution (`MAXSYMLINKS` on Linux). -/
def MAXSYMLINKS : Nat := 40

/-- Follow symbolic links starting at `p`: the name of the first object that
is not a symbolic link (it may be missing), or `none` after too many links
(`ELOOP`). -/
def follow (fs : String → Option Node) : Nat → String → Option String
  | 0, _ => none
  | n + 1, p =>
    match fs p with
    | some (.symlink t _ _) => follow fs n t
    | _ => some p

/-- The call `lstat(path, &st)`: `none` stands for the return value -1. -/
def lstat (w : World) (path : String) : Option Stat :=
  match w.fs path with
  | some (.file sz a m) => some ⟨true, sz, a, m⟩
  | some (.symlink t a m) => some ⟨false, t.length, a, m⟩
  | none => none

/-- The call `stat(path, &st)`: `none` stands for the return value -1. -/
def stat (w : World) (path : String) : Option Stat :=
  match follow w.fs MAXSYMLINKS path with
  | some q =>
    match w.fs q with
    | some (.file sz a m) => some ⟨true, sz, a, m⟩
    | _ => none
  | none => none

/-- Write a node at a name. -/
def World.put (w : World) (q : String) (n : Node) : World :=
  { w with fs := fun p => if p = q then some n else w.fs p }

/-- The call `time(NULL)`: one reading of the clock. -/
def time (w : World) : Int × World :=
  (w.clock w.ticks, { w with ticks := w.ticks + 1 })

/-- Set the times of the file a path resolves to, following symbolic links;
the common part of `utime` and `utimes`.  Returns 0 on success and -1 on
failure, as the C calls do. -/
def set_times (w : World) (path : String) (a m : Int) : Int × World :=
  match follow w.fs MAXSYMLINKS path with
  | some q =>
    match w.fs q with
    | some (.file sz _ _) =>
      if w.deny_utime q then (-1, w) else (0, w.put q (.file sz a m))
    | _ => (-1, w)
  | none => (-1, w)

/-- The call `utime(path, &times)`; it follows symbolic links. -/
def utime (w : World) (path : String) (times : Utimbuf) : Int × World :=
  set_times w path times.actime times.modtime

/-- The call `utimes(path, tv)`; like `utime` it follows symbolic links (the
call that does not is `lutimes`).  Times are kept in whole seconds. -/
def utimes (w : World) (path : String) (tv : Timeval × Timeval) : Int × World :=
  set_times w path tv.1.tv_sec tv.2.tv_sec

/-- The calls `fopen(path, "w")` and, on success, `fclose`: whether `fopen`
returned non-NULL, and the world afterwards.  A missing file is created empty
with the current time; an existing one is truncated. -/
def fopen_w (w : World) (path : String) : Bool × World :=
  match follow w.fs MAXSYMLINKS path with
  | some q =>
    match w.fs q with
    | none =>
      if w.deny_create q then (false, w)
      else
        let t := time w
        (true, t.2.put q (.file 0 t.1 t.1))
    | some (.file _ a _) =>
      if w.deny_create q then (false, w)
      else
        let t := time w
        (true, t.2.put q (.file 0 a t.1))
    | some (.symlink _ _ _) => (false, w)
  | none => (false, w)

/-- The call `fprintf(stderr, ...)` with the formatted line. -/
def eprint (w : World) (line : String) : World :=
  { w with err := w.err ++ [line] }

/-- The call `perror(s)`; the text of `errno` after the colon is left out. -/
def perror (w : World) (s : String) : World :=
  { w with err := w.err ++ [s] }

/-- The call `printf(...)` with the formatted line. -/
def print (w : World) (line : String) : World :=
  { w with out := w.out ++ [line] }

/-! ## `touch_file` (src/dutch.c, lines 26-67) -/

/-- The function `touch_file`. -/
def touch_file (filename : String) (no_create : Bool) (new_times : Utimbuf)
    (silent : Bool) (no_dereference : Bool) (w : World) : Run Unit :=
  if no_dereference then
    match lstat w filename with
    | none =>
      .exit 1 (if !silent then
        eprint w ("Error: File " ++ filename ++ " does not exist and no-create option is set")
      else w)
    | some _ =>
      let tv : Timeval × Timeval := (⟨new_times.actime, 0⟩, ⟨new_times.modtime, 0⟩)
      let r := utimes w filename tv
      if r.1 ≠ 0 && !silent then
        .exit 1 (perror r.2 "Error updating timestamp")
      else .ret () r.2
  else
    match stat w filename with
    | none =>
      if no_create then
        .exit 1 (if !silent then
          eprint w ("Error: File " ++ filename ++ " does not exist and no-create option is set")
        else w)
      else
        let f := fopen_w w filename
        if !f.1 then
          .exit 1 (if !silent then perror f.2 "Error creating file" else f.2)
        else
          let r := utime f.2 filename new_times
          if r.1 ≠ 0 && !silent then
            .exit 1 (perror r.2 "Error updating timestamp")
          else .ret () r.2
    | some _ =>
      let r := utime w filename new_times
      if r.1 ≠ 0 && !silent then
        .exit 1 (perror r.2 "Error updating timestamp")
      else .ret () r.2

/-- The loop of `main` over the target paths (lines 207-209). -/
def touch_loop (no_create : Bool) (new_times : Utimbuf) (silent : Bool)
    (no_dereference : Bool) : List String → World → Run Unit
  | [], w => .ret () w
  | f :: rest, w =>
    match touch_file f no_create new_times silent no_dereference w with
    | .ret _ w1 => touch_loop no_create new_times silent no_dereference rest w1
    | .exit c w1 => .exit c w1

/-! ## `getopt_long` (GNU libc), as called on line 127

The scan is the GNU one with its default ordering: arguments that are not
options are moved behind the options, `--` ends the options, a long option
may be abbreviated to an unambiguous beginning and takes its argument after
`=` or from the next argument, short options may be clustered.  The
environment variable `POSIXLY_CORRECT` is taken to be unset, and the
diagnostics `getopt_long` itself prints are not recorded. -/

/-- An entry of the `long_options` table; `val` 0 is the character of
code 0. -/
structure LongOption where
  name : String
  has_arg : Bool
  val : Char
deriving DecidableEq, Repr

/-- The table `long_options` of `main` (lines 111-123). -/
def long_options : List LongOption :=
  [ ⟨"time", true, Char.ofNat 0⟩,
    ⟨"access", false, 'a'⟩,
    ⟨"modification", false, 'm'⟩,
    ⟨"no-create", false, 'c'⟩,
    ⟨"date", true, 'd'⟩,
    ⟨"reference", true, 'r'⟩,
    ⟨"no-dereference", false, 'h'⟩,
    ⟨"silent", false, 's'⟩,
    ⟨"help", false, Char.ofNat 0⟩,
    ⟨"version", false, Char.ofNat 0⟩ ]

/-- The short-option string passed to `getopt_long` (line 127). -/
def optstring : String := "amcf:d:t:r:sh"

/-- What one call of `getopt_long` hands back: the return value (`?` on an
error, the character of code 0 for a long option whose `val` is 0), `optarg`,
and the value stored through `&option_index`, if one was stored. -/
structure GetoptResult where
  opt : Char
  optarg : Option String
  longind : Option Nat
deriving DecidableEq, Repr

/-- Look a short option up in an option string: `none` when it is not
there, else whether it is followed by a colon. -/
def optLookup : List Char → Char → Option Bool
  | [], _ => none
  | x :: rest, c =>
    if x = c then some (rest.head? = some ':') else optLookup rest c

/-- What the option string says about a short option: `none` when it is not
an option (`:` and `;` never are), else whether it takes an argument. -/
def short_kind (c : Char) : Option Bool :=
  if c = ':' ∨ c = ';' then none else optLookup optstring.data c

/-- The short options of one argument (the characters after the dash);
`next` is the argument that follows.  Returns the results and whether `next`
was used up as an option argument. -/
def short_cluster (next : Option String) : List Char → List GetoptResult × Bool
  | [] => ([], false)
  | c :: cs =>
    match short_kind c with
    | none =>
      (⟨'?', none, none⟩ :: (short_cluster next cs).1, (short_cluster next cs).2)
    | some false =>
      (⟨c, none, none⟩ :: (short_cluster next cs).1, (short_cluster next cs).2)
    | some true =>
      if cs ≠ [] then ([⟨c, some (String.mk cs), none⟩], false)
      else
        match next with
        | some a => ([⟨c, some a, none⟩], true)
        | none => ([⟨'?', none, none⟩], false)

/-- Split the text of a long option at the first `=`. -/
def splitEq : List Char → List Char × Option (List Char)
  | [] => ([], none)
  | c :: cs =>
    if c = '=' then ([], some cs)
    else (c :: (splitEq cs).1, (splitEq cs).2)

/-- Find the long option a name stands for: an exact match, else the only
option (up to `has_arg` and `val`) the name is a beginning of. -/
def findLong (nm : List Char) : Option (Nat × LongOption) :=
  match long_options.enum.find? (fun p => p.2.name.data = nm) with
  | some p => some p
  | none =>
    match long_options.enum.filter (fun p => nm.isPrefixOf p.2.name.data) with
    | [] => none
    | p :: ps =>
      if ps.all (fun q => q.2.has_arg = p.2.has_arg ∧ q.2.val = p.2.val) then some p
      else none

/-- One long option (the characters after the two dashes); `next` is the
argument that follows.  Returns the result and whether `next` was used up. -/
def process_long_option (body : List Char) (next : Option String) :
    GetoptResult × Bool :=
  match findLong (splitEq body).1 with
  | none => (⟨'?', none, none⟩, false)
  | some (i, o) =>
    match (splitEq body).2 with
    | some v =>
      if o.has_arg then (⟨o.val, some (String.mk v), some i⟩, false)
      else (⟨'?', none, none⟩, false)
    | none =>
      if o.has_arg then
        match next with
        | some a => (⟨o.val, some a, some i⟩, true)
        | none => (⟨'?', none, none⟩, false)
      else (⟨o.val, none, some i⟩, false)

/-- The whole scan of the arguments after `argv[0]`: the results of the
successive calls of `getopt_long` up to the one that returns -1, and the
arguments from `optind` on at that moment.  The flag says that the first
argument was used up by the option before it. -/
def getopt_scan : Bool → List String → List GetoptResult × List String
  | _, [] => ([], [])
  | true, _ :: rest => getopt_scan false rest
  | false, a :: rest =>
    if a = "--" then ([], rest)
    else
      match a.data with
      | c1 :: c2 :: body =>
        if c1 = '-' ∧ c2 = '-' then
          (  (process_long_option body rest.head?).1
               :: (getopt_scan (process_long_option body rest.head?).2 rest).1,
             (getopt_scan (process_long_option body rest.head?).2 rest).2 )
        else if c1 = '-' then
          (  (short_cluster rest.head? (c2 :: body)).1
               ++ (getopt_scan (short_cluster rest.head? (c2 :: body)).2 rest).1,
             (getopt_scan (short_cluster rest.head? (c2 :: body)).2 rest).2 )
        else ((getopt_scan false rest).1, a :: (getopt_scan false rest).2)
      | _ => ((getopt_scan false rest).1, a :: (getopt_scan false rest).2)

/-- The calls of `getopt_long(argc, argv, "amcf:d:t:r:sh", long_options,
&option_index)` made by the loop of line 127. -/
def getopt_long (argv : List String) : List GetoptResult × List String :=
  getopt_scan false argv.tail

/-! ## `main` (src/dutch.c, lines 99-212) -/

/-- The local variables of `main` that the option loop sets. -/
structure Vars where
  change_access_time : Bool
  change_modification_time : Bool
  no_create : Bool
  silent : Bool
  no_dereference : Bool
  timestamp : Option String
  reference_file : Option String
  option_index : Nat
deriving DecidableEq, Repr

/-- The initial values of lines 100-106 and 125. -/
def Vars.init : Vars :=
  ⟨true, true, false, false, false, none, none, 0⟩

/-- The function `print_usage` (lines 13-18). -/
def print_usage {α : Type} (w : World) : Run α :=
  .exit 1 (print (print (print w
    "Usage: dutch [OPTION] FILE...")
    "Update the access and modification times of each FILE to the current time.")
    "Type \x27dutch --help\x27 to see detailed usage information.")

/-- The function `print_version` (lines 20-24). -/
def print_version {α : Type} (w : World) : Run α :=
  .exit 0 (print (print w
    "dutch version 1.0.0, an almost drop-in replacement for touch")
    "Copyright (C) 2023 Katahgii")

/-- The lines `display_help_with_pager` writes to the pager (lines 78-94). -/
def help_lines : List String :=
  [ "Usage: dutch [OPTION]... FILE...",
    "Update the access and modification times of each FILE to the current time.",
    " -a, --time=access        Change only the access time.",
    " -m, --time=modify        Change only the modification time.",
    " -c, --no-create          Do not create any files that do not exist.",
    " -f                       Ignored (for backward compatibility).",
    " -d, --date=STRING        Use STRING as the time instead of the current time.",
    " -t STAMP                 Use [[CC]YY]MMDDhhmm[.ss] instead of the current time.",
    " -r, --reference=FILE     Use FILE\x27s times instead of the current time.",
    " -h, --no-dereference     Affect symbolic links instead of referenced files.",
    " -s, --silent             Silent mode; do not display errors.",
    " --help                   Display this help and exit.",
    " --version                Display version information and exit.",
    "Examples:",
    "  dutch file.txt",
    "  dutch -m file.txt",
    "  dutch -d \"2023-04-01 12:34:56\" file1.txt file2.txt" ]

/-- The function `display_help_with_pager` (lines 69-97). -/
def display_help_with_pager (L : Libc) (w : World) : Run Unit :=
  if !L.popen_ok then .exit 1 (perror w "Error opening pager")
  else .ret () { w with out := w.out ++ help_lines }

/-- The name field `long_options[i].name`. -/
def long_name (i : Nat) : String :=
  match long_options.get? i with
  | some o => o.name
  | none => ""

/-- The body of the option loop, the `switch` of lines 128-177, for one
result of `getopt_long`. -/
def parse_case (L : Libc) (r : GetoptResult) (v0 : Vars) (w : World) : Run Vars :=
  let v : Vars := { v0 with option_index := r.longind.getD v0.option_index }
  if r.opt = Char.ofNat 0 then
    if long_name v.option_index = "help" then
      match display_help_with_pager L w with
      | .ret _ w1 => .exit 0 w1
      | .exit c w1 => .exit c w1
    else if long_name v.option_index = "version" then print_version w
    else if long_name v.option_index = "time" then
      if r.optarg = some "access" then .ret { v with change_modification_time := false } w
      else if r.optarg = some "modify" then .ret { v with change_access_time := false } w
      else .exit 1 (eprint w "Error: Invalid argument for --time")
    else .ret v w
  else if r.opt = 'a' then .ret { v with change_modification_time := false } w
  else if r.opt = 'm' then .ret { v with change_access_time := false } w
  else if r.opt = 'c' then .ret { v with no_create := true } w
  else if r.opt = 'f' then .ret v w
  else if r.opt = 'd' then .ret { v with timestamp := r.optarg } w
  else if r.opt = 't' then .ret { v with timestamp := r.optarg } w
  else if r.opt = 'r' then .ret { v with reference_file := r.optarg } w
  else if r.opt = 'h' then .ret { v with no_dereference := true } w
  else if r.opt = 's' then .ret { v with silent := true } w
  else if r.opt = '?' then .exit 1 w
  else print_usage w

/-- The option loop of lines 127-178 over the results of `getopt_long`. -/
def parse_loop (L : Libc) : List GetoptResult → Vars → World → Run Vars
  | [], v, w => .ret v w
  | r :: rs, v, w =>
    match parse_case L r v w with
    | .ret v1 w1 => parse_loop L rs v1 w1
    | .exit c w1 => .exit c w1

/-- The `struct tm` after `memset(&tm, 0, sizeof(struct tm))`. -/
def Tm.zero : Tm := ⟨0, 0, 0, 0, 0, 0, 0, 0, 0⟩

/-- The two `strptime` attempts of line 196, with the short circuit of `&&`:
whether one of them succeeded, and `tm` afterwards. -/
def parse_timestamp (L : Libc) (timestamp : String) : Bool × Tm :=
  let r1 := L.strptime timestamp "%c" Tm.zero
  if r1.1 then (true, r1.2)
  else L.strptime timestamp "%x %X" r1.2

/-- The computation of `new_times` (lines 185-205). -/
def resolve_times (L : Libc) (v : Vars) (w : World) : Run Utimbuf :=
  match v.reference_file with
  | some reference_file =>
    match stat w reference_file with
    | none =>
      if !v.silent then .exit 1 (perror w "Error reading reference file")
      else .ret ⟨L.uninit_stat.st_atime, L.uninit_stat.st_mtime⟩ w
    | some ref_stat => .ret ⟨ref_stat.st_atime, ref_stat.st_mtime⟩ w
  | none =>
    match v.timestamp with
    | some timestamp =>
      let p := parse_timestamp L timestamp
      if !p.1 && !v.silent then
        .exit 1 (eprint w "Error: Could not parse timestamp")
      else
        let a : (Int × Tm) × World :=
          if v.change_access_time then (L.mktime p.2, w)
          else (((time w).1, p.2), (time w).2)
        let m : (Int × Tm) × World :=
          if v.change_modification_time then (L.mktime a.1.2, a.2)
          else (((time a.2).1, a.1.2), (time a.2).2)
        .ret ⟨a.1.1, m.1.1⟩ m.2
    | none =>
      let a := time w
      let m := time a.2
      .ret ⟨a.1, m.1⟩ m.2

/-- The function `main` after the scan of the options: lines 180-211, with
`operands` the arguments `argv[optind..argc)`. -/
def main_body (L : Libc) (v : Vars) (operands : List String) (w : World) : Run Unit :=
  if operands.isEmpty && !v.silent then
    print_usage (eprint w "Error: Expected filename after options")
  else
    match resolve_times L v w with
    | .exit c w1 => .exit c w1
    | .ret new_times w1 =>
      touch_loop v.no_create new_times v.silent v.no_dereference operands w1

/-- The function `main`: the exit status of the process and the world it
leaves. -/
def main (L : Libc) (argv : List String) (w : World) : Nat × World :=
  match parse_loop L (getopt_long argv).1 Vars.init w with
  | .exit c w1 => (c, w1)
  | .ret v w1 =>
    match main_body L v (getopt_long argv).2 w1 with
    | .exit c w2 => (c, w2)
    | .ret _ w2 => (0, w2)

/-! ## Example worlds -/

/-- A world for examples: a file `a`, a file `f`, a symbolic link `l` to `f`,
and a dangling symbolic link `d`; nothing is denied and the clock shows 1000,
1001, ... -/
def demoWorld : World where
  fs := fun p =>
    if p = "a" then some (.file 3 1 2)
    else if p = "f" then some (.file 5 3 4)
    else if p = "l" then some (.symlink "f" 7 8)
    else if p = "d" then some (.symlink "nowhere" 9 9)
    else none
  deny_create := fun _ => false
  deny_utime := fun _ => false
  clock := fun n => 1000 + n
  ticks := 0
  err := []
  out := []

/-- A library for examples: no timestamp string parses, `mktime` returns the
seconds field, `popen` works. -/
def demoLibc : Libc where
  strptime := fun _ _ tm => (false, tm)
  mktime := fun tm => (tm.tm_sec, tm)
  popen_ok := true
  uninit_stat := ⟨false, 0, 0, 0⟩

/-- A library for examples in which the one string `T` parses, under the
first format, to the instant 500. -/
def parsingLibc : Libc where
  strptime := fun s fmt tm =>
    if s = "T" ∧ fmt = "%c" then (true, { tm with tm_sec := 500 }) else (false, tm)
  mktime := fun tm => (tm.tm_sec, tm)
  popen_ok := true
  uninit_stat := ⟨false, 0, 0, 0⟩

/-- The world `demoWorld` in which the times of the file `a` may not be
set. -/
def deniedWorld : World :=
  { demoWorld with deny_utime := fun p => decide (p = "a") }

/-! ## Notions used in the statements -/

/-- The target of a symbolic link; `none` for a file and for a missing
name. -/
def link_target : Option Node → Option String
  | some (.symlink t _ _) => some t
  | _ => none

/-- The file a path resolves to carries the pair `t` as its times. -/
def Stamped (t : Utimbuf) (w : World) (p : String) : Prop :=
  ∃ st, stat w p = some st ∧ st.st_atime = t.actime ∧ st.st_mtime = t.modtime

/-- What a successful `touch_file` in dereferencing mode needs at a path:
the path resolves within the limit on links, the times of the file it
resolves to may be set, and when that file is missing it is to be created and
may be created. -/
def Touchable (no_create : Bool) (w : World) (p : String) : Prop :=
  ∃ q, follow w.fs MAXSYMLINKS p = some q ∧ w.deny_utime q = false ∧
    (w.fs q = none → no_create = false ∧ w.deny_create q = false)

/-- How the world changes over successful dereferencing calls of
`touch_file` with the pair `t`: links stay as they are, nothing disappears,
files that carry the pair keep it, the oracles stay. -/
def Grows (t : Utimbuf) (w w1 : World) : Prop :=
  (∀ p, link_target (w1.fs p) = link_target (w.fs p)) ∧
  (∀ q, w1.fs q = none → w.fs q = none) ∧
  (∀ q sz, w.fs q = some (.file sz t.actime t.modtime) →
    ∃ sz1, w1.fs q = some (.file sz1 t.actime t.modtime)) ∧
  w1.deny_utime = w.deny_utime ∧ w1.deny_create = w.deny_create

/-- The result is an option that asks for the access time only: `-a`,
`--access` or `--time=access`. -/
def GetoptResult.access_only (r : GetoptResult) : Bool :=
  r.opt = 'a' ||
    (r.opt = Char.ofNat 0 && r.longind.map long_name = some "time" &&
      r.optarg = some "access")

/-- The result is an option that asks for the modification time only: `-m`,
`--modification` or `--time=modify`. -/
def GetoptResult.modify_only (r : GetoptResult) : Bool :=
  r.opt = 'm' ||
    (r.opt = Char.ofNat 0 && r.longind.map long_name = some "time" &&
      r.optarg = some "modify")

/-! ## Theorems -/

/-! ### Path resolution -/

/-- One step of `follow`, read off the link target of the node. -/
theorem follow_succ (fs : String → Option Node) (n : Nat) (p : String) :
    follow fs (n + 1) p
      = match link_target (fs p) with
        | some t => follow fs n t
        | none => some p := by
  rw [follow]
  rcases h : fs p with _ | ⟨sz, a, m⟩ | ⟨t, a, m⟩ <;> simp [link_target]

/-- Path resolution only looks at the symbolic links. -/
theorem follow_congr (fs fs1 : String → Option Node)
    (h : ∀ p, link_target (fs1 p) = link_target (fs p)) (n : Nat) (p : String) :
    follow fs1 n p = follow fs n p := by
  induction n generalizing p with
  | zero => rfl
  | succ n ih =>
    rw [follow_succ, follow_succ, h p]
    cases link_target (fs p) with
    | none => rfl
    | some t => exact ih t

/-- Path resolution never ends at a symbolic link. -/
theorem follow_end (fs : String → Option Node) (n : Nat) (p q : String)
    (h : follow fs n p = some q) : link_target (fs q) = none := by
  induction n generalizing p with
  | zero => simp [follow] at h
  | succ n ih =>
    rw [follow_succ] at h
    cases hl : link_target (fs p) with
    | none =>
      rw [hl] at h
      simp only [Option.some.injEq] at h
      rw [← h]; exact hl
    | some t =>
      rw [hl] at h
      exact ih t h

/-- Writing a file at a name that is not a link leaves the links alone. -/
theorem link_target_put (w : World) (q : String) (sz : Nat) (a m : Int)
    (hq : link_target (w.fs q) = none) (p : String) :
    link_target ((w.put q (.file sz a m)).fs p) = link_target (w.fs p) := by
  by_cases hp : p = q
  · subst hp
    rw [hq]
    simp [World.put, link_target]
  · simp [World.put, hp]

/-- Writing a file at a name that is not a link leaves path resolution alone. -/
theorem follow_put (w : World) (q : String) (sz : Nat) (a m : Int)
    (hq : link_target (w.fs q) = none) (n : Nat) (p : String) :
    follow (w.put q (.file sz a m)).fs n p = follow w.fs n p :=
  follow_congr _ _ (link_target_put w q sz a m hq) n p

/-- After a file is written where a path resolves to, `stat` of the path shows it. -/
theorem stat_put (w : World) (p q : String) (sz : Nat) (a m : Int)
    (hf : follow w.fs MAXSYMLINKS p = some q) :
    stat (w.put q (.file sz a m)) p = some ⟨true, sz, a, m⟩ := by
  have hq := follow_end _ _ _ _ hf
  unfold stat
  rw [follow_put w q sz a m hq, hf]
  simp [World.put]

/-- A path that resolves but fails `stat` ends at a missing name. -/
theorem stat_eq_none (w : World) (p q : String)
    (hf : follow w.fs MAXSYMLINKS p = some q) (hs : stat w p = none) :
    w.fs q = none := by
  have hq := follow_end _ _ _ _ hf
  rcases h : w.fs q with _ | ⟨sz, a, m⟩ | ⟨t, a, m⟩
  · rfl
  · simp [stat, hf, h] at hs
  · simp [h, link_target] at hq

/-- A successful `stat` reports the file the path resolves to. -/
theorem stat_eq_some (w : World) (p : String) (st : Stat) (hs : stat w p = some st) :
    ∃ q, follow w.fs MAXSYMLINKS p = some q ∧
      w.fs q = some (.file st.st_size st.st_atime st.st_mtime) := by
  unfold stat at hs
  rcases hf : follow w.fs MAXSYMLINKS p with _ | q
  · simp [hf] at hs
  · rcases h : w.fs q with _ | ⟨sz, a, m⟩ | ⟨t, a, m⟩
    · simp [hf, h] at hs
    · simp [hf, h] at hs
      subst hs
      exact ⟨q, rfl, h⟩
    · simp [hf, h] at hs

/-- The effect of `set_times` on a path that resolves to a file. -/
theorem set_times_file (w : World) (p q : String) (sz : Nat) (a0 m0 a m : Int)
    (hf : follow w.fs MAXSYMLINKS p = some q) (hq : w.fs q = some (.file sz a0 m0)) :
    set_times w p a m
      = if w.deny_utime q then (-1, w) else (0, w.put q (.file sz a m)) := by
  simp [set_times, hf, hq]

/-- The effect of `fopen_w` on a path that resolves to a missing name. -/
theorem fopen_w_missing (w : World) (p q : String)
    (hf : follow w.fs MAXSYMLINKS p = some q) (hq : w.fs q = none) :
    fopen_w w p
      = if w.deny_create q then (false, w)
        else (true, (time w).2.put q (.file 0 (time w).1 (time w).1)) := by
  simp [fopen_w, hf, hq]

/-- The result of `stat` on a path that resolves to a file. -/
theorem stat_file (w : World) (p q : String) (sz : Nat) (a m : Int)
    (hf : follow w.fs MAXSYMLINKS p = some q) (hq : w.fs q = some (.file sz a m)) :
    stat w p = some ⟨true, sz, a, m⟩ := by
  simp [stat, hf, hq]

/-! ### The loop over the target paths -/

/-- Every world grows into itself. -/
theorem grows_refl (t : Utimbuf) (w : World) : Grows t w w :=
  ⟨fun _ => rfl, fun _ h => h, fun _ sz h => ⟨sz, h⟩, rfl, rfl⟩

/-- Growth composes. -/
theorem grows_trans {t : Utimbuf} {w w1 w2 : World} (h1 : Grows t w w1)
    (h2 : Grows t w1 w2) : Grows t w w2 := by
  obtain ⟨a1, b1, c1, d1, e1⟩ := h1
  obtain ⟨a2, b2, c2, d2, e2⟩ := h2
  refine ⟨fun p => (a2 p).trans (a1 p), fun q h => b1 q (b2 q h), ?_, d2.trans d1,
    e2.trans e1⟩
  intro q sz h
  obtain ⟨sz1, h1⟩ := c1 q sz h
  exact c2 q sz1 h1

/-- Stamping the file at a name that is not a link is a growth. -/
theorem grows_of_fs (t : Utimbuf) (w w1 : World) (q : String) (sz : Nat)
    (hq : link_target (w.fs q) = none)
    (hfs : ∀ p, w1.fs p = if p = q then some (.file sz t.actime t.modtime) else w.fs p)
    (hu : w1.deny_utime = w.deny_utime) (hc : w1.deny_create = w.deny_create) :
    Grows t w w1 := by
  refine ⟨?_, ?_, ?_, hu, hc⟩
  · intro p
    rw [hfs p]
    by_cases hp : p = q
    · subst hp
      rw [hq]
      simp [link_target]
    · simp [hp]
  · intro p h
    rw [hfs p] at h
    by_cases hp : p = q
    · simp [hp] at h
    · simpa [hp] using h
  · intro p sz0 h
    rw [hfs p]
    by_cases hp : p = q
    · exact ⟨sz, by simp [hp]⟩
    · exact ⟨sz0, by simpa [hp] using h⟩

/-- A path that could be touched can still be touched after a growth. -/
theorem touchable_of_grows {t : Utimbuf} {no_create : Bool} {w w1 : World} {p : String}
    (hg : Grows t w w1) (h : Touchable no_create w p) : Touchable no_create w1 p := by
  obtain ⟨q, hf, hu, hc⟩ := h
  obtain ⟨a1, b1, _, d1, e1⟩ := hg
  refine ⟨q, ?_, ?_, ?_⟩
  · rw [follow_congr w.fs w1.fs a1]; exact hf
  · rw [d1]; exact hu
  · intro hn
    rw [e1]
    exact hc (b1 q hn)

/-- A path whose file carries the pair still does after a growth. -/
theorem stamped_of_grows {t : Utimbuf} {w w1 : World} {p : String}
    (hg : Grows t w w1) (h : Stamped t w p) : Stamped t w1 p := by
  obtain ⟨st, hs, ha, hm⟩ := h
  obtain ⟨q, hf, hq⟩ := stat_eq_some w p st hs
  obtain ⟨a1, _, c1, _, _⟩ := hg
  rw [ha, hm] at hq
  obtain ⟨sz1, h1⟩ := c1 q _ hq
  have hf1 : follow w1.fs MAXSYMLINKS p = some q := by
    rw [follow_congr w.fs w1.fs a1]; exact hf
  exact ⟨_, stat_file w1 p q sz1 _ _ hf1 h1, rfl, rfl⟩

/-- One successful dereferencing call of `touch_file`. -/
theorem touch_file_step (t : Utimbuf) (no_create silent : Bool) (w : World) (p : String)
    (h : Touchable no_create w p) :
    ∃ w1, touch_file p no_create t silent false w = .ret () w1 ∧ Grows t w w1 ∧
      Stamped t w1 p := by
  obtain ⟨q, hf, hu, hc⟩ := h
  have hl := follow_end _ _ _ _ hf
  rcases hq : w.fs q with _ | ⟨sz, a0, m0⟩ | ⟨tg, a0, m0⟩
  · obtain ⟨hnc, hdc⟩ := hc hq
    subst hnc
    have hs : stat w p = none := by simp [stat, hf, hq]
    have hl1 : link_target ((time w).2.fs q) = none := hl
    have hf1 : follow ((time w).2.put q (.file 0 (time w).1 (time w).1)).fs
        MAXSYMLINKS p = some q := by
      rw [follow_put _ _ _ _ _ hl1]; exact hf
    have hq1 : ((time w).2.put q (.file 0 (time w).1 (time w).1)).fs q
        = some (.file 0 (time w).1 (time w).1) := by
      simp [World.put]
    have hu1 : ((time w).2.put q (.file 0 (time w).1 (time w).1)).deny_utime q = false := hu
    refine ⟨((time w).2.put q (.file 0 (time w).1 (time w).1)).put q
      (.file 0 t.actime t.modtime), ?_, ?_, ?_⟩
    · simp [touch_file, hs, fopen_w_missing w p q hf hq, hdc, utime,
        set_times_file _ p q 0 _ _ _ _ hf1 hq1, hu1]
    · refine grows_of_fs t w _ q 0 hl ?_ rfl rfl
      intro p1
      by_cases hp : p1 = q
      · simp [World.put, hp]
      · simp [World.put, hp, time]
    · exact ⟨_, stat_put _ p q 0 _ _ hf1, rfl, rfl⟩
  · have hs : stat w p = some ⟨true, sz, a0, m0⟩ := stat_file w p q sz a0 m0 hf hq
    refine ⟨w.put q (.file sz t.actime t.modtime), ?_, ?_, ?_⟩
    · simp [touch_file, hs, utime, set_times_file w p q sz a0 m0 _ _ hf hq, hu]
    · refine grows_of_fs t w _ q sz hl ?_ rfl rfl
      intro p1
      simp [World.put]
    · exact ⟨_, stat_put w p q sz _ _ hf, rfl, rfl⟩
  · simp [hq, link_target] at hl

/-- The loop over touchable paths returns, and stamps them all. -/
theorem touch_loop_grows (t : Utimbuf) (no_create silent : Bool) (paths : List String) :
    ∀ w : World, (∀ p ∈ paths, Touchable no_create w p) →
      ∃ w1, touch_loop no_create t silent false paths w = .ret () w1 ∧ Grows t w w1 ∧
        ∀ p ∈ paths, Stamped t w1 p := by
  induction paths with
  | nil =>
    intro w _
    exact ⟨w, rfl, grows_refl t w, fun p hp => by simp at hp⟩
  | cons f rest ih =>
    intro w h
    obtain ⟨w1, h1, g1, s1⟩ :=
      touch_file_step t no_create silent w f (h f (List.mem_cons_self f rest))
    obtain ⟨w2, h2, g2, s2⟩ :=
      ih w1 (fun p hp => touchable_of_grows g1 (h p (List.mem_cons_of_mem f hp)))
    refine ⟨w2, ?_, grows_trans g1 g2, ?_⟩
    · simp [touch_loop, h1, h2]
    · intro p hp
      rcases List.mem_cons.mp hp with hpf | hpr
      · subst hpf
        exact stamped_of_grows g2 s1
      · exact s2 p hpr

/-! ### The option loop -/

/-- A character found in an option string occurs in it. -/
theorem optLookup_mem (l : List Char) (c : Char) (b : Bool)
    (h : optLookup l c = some b) : c ∈ l := by
  induction l with
  | nil => simp [optLookup] at h
  | cons x rest ih =>
    unfold optLookup at h
    by_cases hx : x = c
    · simp [hx]
    · simp only [hx, if_false] at h
      exact List.mem_cons_of_mem x (ih h)

/-- The character of code 0 is not a short option. -/
theorem short_kind_ne (c : Char) (b : Bool) (h : short_kind c = some b) :
    c ≠ Char.ofNat 0 := by
  unfold short_kind at h
  split at h
  · simp at h
  · have hmem := optLookup_mem _ _ _ h
    intro h0
    rw [h0] at hmem
    revert hmem
    decide

/-- The defining equation of `short_cluster` on a non-empty cluster. -/
theorem short_cluster_cons (next : Option String) (c : Char) (cs : List Char) :
    short_cluster next (c :: cs)
      = match short_kind c with
        | none =>
          (⟨'?', none, none⟩ :: (short_cluster next cs).1, (short_cluster next cs).2)
        | some false =>
          (⟨c, none, none⟩ :: (short_cluster next cs).1, (short_cluster next cs).2)
        | some true =>
          if cs ≠ [] then ([⟨c, some (String.mk cs), none⟩], false)
          else
            match next with
            | some a => ([⟨c, some a, none⟩], true)
            | none => ([⟨'?', none, none⟩], false) :=
  rfl

/-- A short option never makes `getopt_long` return 0. -/
theorem short_cluster_opt (next : Option String) (cs : List Char) :
    ∀ r ∈ (short_cluster next cs).1, r.opt ≠ Char.ofNat 0 := by
  induction cs with
  | nil => simp [short_cluster]
  | cons c cs ih =>
    intro r hr
    rw [short_cluster_cons] at hr
    rcases hl : short_kind c with _ | b
    · simp only [hl, List.mem_cons] at hr
      rcases hr with rfl | hr
      · decide
      · exact ih r hr
    · have hne := short_kind_ne c b hl
      cases b with
      | false =>
        simp only [hl, List.mem_cons] at hr
        rcases hr with rfl | hr
        · exact hne
        · exact ih r hr
      | true =>
        simp only [hl] at hr
        by_cases hcs : cs ≠ []
        · rw [if_pos hcs, List.mem_singleton] at hr
          subst hr; exact hne
        · rw [if_neg hcs] at hr
          cases next with
          | none =>
            simp only [List.mem_singleton] at hr
            subst hr; decide
          | some a =>
            simp only [List.mem_singleton] at hr
            subst hr; exact hne

/-- A long option that makes `getopt_long` return 0 stores its index. -/
theorem process_long_option_longind (body : List Char) (next : Option String)
    (h : (process_long_option body next).1.opt = Char.ofNat 0) :
    (process_long_option body next).1.longind ≠ none := by
  unfold process_long_option at h ⊢
  split at h
  · exact absurd h (by decide)
  · split at h
    · split at h
      · simp_all
      · exact absurd h (by decide)
    · split at h
      · split at h
        · simp_all
        · exact absurd h (by decide)
      · simp_all

/-- Whenever `getopt_long` returns 0 it has stored the index of a long option. -/
theorem getopt_scan_longind (args : List String) :
    ∀ (b : Bool), ∀ r ∈ (getopt_scan b args).1,
      r.opt = Char.ofNat 0 → r.longind ≠ none := by
  induction args with
  | nil => intro b r hr; cases b <;> simp [getopt_scan] at hr
  | cons a rest ih =>
    intro b r hr
    cases b with
    | true =>
      rw [getopt_scan] at hr
      exact ih false r hr
    | false =>
      rw [getopt_scan] at hr
      split at hr
      · simp at hr
      · split at hr
        · split at hr
          · simp only [List.mem_cons] at hr
            rcases hr with rfl | hr
            · exact process_long_option_longind _ _
            · exact ih _ r hr
          · split at hr
            · simp only [List.mem_append] at hr
              rcases hr with hr | hr
              · intro h0
                exact absurd h0 (short_cluster_opt _ _ r hr)
              · exact ih _ r hr
            · exact ih _ r hr
        · exact ih _ r hr

/-- What one pass through the `switch` does to the two change flags. -/
theorem parse_case_flags (L : Libc) (r : GetoptResult) (v0 v : Vars) (w w1 : World)
    (hwf : r.opt = Char.ofNat 0 → r.longind ≠ none)
    (h : parse_case L r v0 w = .ret v w1) :
    (v.change_modification_time = false ↔
      v0.change_modification_time = false ∨ r.access_only = true) ∧
    (v.change_access_time = false ↔
      v0.change_access_time = false ∨ r.modify_only = true) := by
  unfold parse_case at h
  by_cases h0 : r.opt = Char.ofNat 0
  · obtain ⟨i, hi⟩ := Option.ne_none_iff_exists'.mp (hwf h0)
    simp only [h0, hi, if_true, Option.getD_some] at h
    unfold display_help_with_pager print_version at h
    split_ifs at h <;> cases h <;>
      simp [GetoptResult.access_only, GetoptResult.modify_only, *]
  · simp only [h0, if_false] at h
    by_cases ha : r.opt = 'a'
    · rw [if_pos ha] at h
      cases h
      simp [GetoptResult.access_only, GetoptResult.modify_only, ha]
    rw [if_neg ha] at h
    by_cases hm : r.opt = 'm'
    · rw [if_pos hm] at h
      cases h
      simp [GetoptResult.access_only, GetoptResult.modify_only, hm]
    rw [if_neg hm] at h
    have e1 : r.access_only = false := by simp [GetoptResult.access_only, ha, h0]
    have e2 : r.modify_only = false := by simp [GetoptResult.modify_only, hm, h0]
    rw [e1, e2]
    unfold print_usage at h
    by_cases h1 : r.opt = 'c'
    · rw [if_pos h1] at h; cases h; simp
    rw [if_neg h1] at h
    by_cases h2 : r.opt = 'f'
    · rw [if_pos h2] at h; cases h; simp
    rw [if_neg h2] at h
    by_cases h3 : r.opt = 'd'
    · rw [if_pos h3] at h; cases h; simp
    rw [if_neg h3] at h
    by_cases h4 : r.opt = 't'
    · rw [if_pos h4] at h; cases h; simp
    rw [if_neg h4] at h
    by_cases h5 : r.opt = 'r'
    · rw [if_pos h5] at h; cases h; simp
    rw [if_neg h5] at h
    by_cases h6 : r.opt = 'h'
    · rw [if_pos h6] at h; cases h; simp
    rw [if_neg h6] at h
    by_cases h7 : r.opt = 's'
    · rw [if_pos h7] at h; cases h; simp
    rw [if_neg h7] at h
    by_cases h8 : r.opt = '?'
    · rw [if_pos h8] at h; cases h
    · rw [if_neg h8] at h; cases h

/-- What the option loop does to the two change flags. -/
theorem parse_loop_flags (L : Libc) (rs : List GetoptResult) :
    ∀ (v0 v : Vars) (w w1 : World),
      (∀ r ∈ rs, r.opt = Char.ofNat 0 → r.longind ≠ none) →
      parse_loop L rs v0 w = .ret v w1 →
      (v.change_modification_time = false ↔
        v0.change_modification_time = false ∨ ∃ r ∈ rs, r.access_only = true) ∧
      (v.change_access_time = false ↔
        v0.change_access_time = false ∨ ∃ r ∈ rs, r.modify_only = true) := by
  induction rs with
  | nil =>
    intro v0 v w w1 _ h
    cases h
    simp
  | cons r rs ih =>
    intro v0 v w w1 hwf h
    rw [parse_loop] at h
    rcases hc : parse_case L r v0 w with ⟨v1, w2⟩ | ⟨c, w2⟩
    · rw [hc] at h
      obtain ⟨a1, b1⟩ :=
        parse_case_flags L r v0 v1 w w2 (hwf r (List.mem_cons_self r rs)) hc
      obtain ⟨a2, b2⟩ :=
        ih v1 v w2 w1 (fun x hx => hwf x (List.mem_cons_of_mem r hx)) h
      constructor
      · rw [a2, a1, List.exists_mem_cons_iff, or_assoc]
      · rw [b2, b1, List.exists_mem_cons_iff, or_assoc]
    · rw [hc] at h
      cases h

/-! ### The claims -/

/-- C3: for a missing target path `touch_file` calls `exit(1)` and leaves the
file system as it was (so nothing is created at the path), when `no_create`
is set in dereferencing mode and `stat` fails, and when `no_dereference` is
set and `lstat` fails, whatever `no_create` is; for both values of
`silent`. -/
theorem touch_file_missing_fails (filename : String) (no_create : Bool)
    (new_times : Utimbuf) (silent no_dereference : Bool) (w : World)
    (h : (no_dereference = true ∧ lstat w filename = none) ∨
      (no_dereference = false ∧ no_create = true ∧ stat w filename = none)) :
    ∃ w1, touch_file filename no_create new_times silent no_dereference w = .exit 1 w1 ∧
      w1.fs = w.fs ∧ lstat w1 filename = lstat w filename ∧
      stat w1 filename = stat w filename := by
  refine ⟨if !silent then
      eprint w ("Error: File " ++ filename ++ " does not exist and no-create option is set")
    else w, ?_, ?_, ?_, ?_⟩
  · rcases h with ⟨hd, hl⟩ | ⟨hd, hc, hs⟩
    · subst hd
      simp [touch_file, hl]
    · subst hd; subst hc
      simp [touch_file, hs]
  all_goals cases silent <;> rfl

/-- Witness for C3: the missing path `zz` in the example world, under
`no_dereference`. -/
theorem touch_file_missing_fails_witness :
    ∃ w1, touch_file "zz" false ⟨10, 20⟩ true true demoWorld = .exit 1 w1 ∧
      w1.fs = demoWorld.fs ∧ lstat w1 "zz" = lstat demoWorld "zz" ∧
      stat w1 "zz" = stat demoWorld "zz" :=
  touch_file_missing_fails "zz" false ⟨10, 20⟩ true true demoWorld
    (Or.inl ⟨rfl, by decide⟩)

/-- C4: when a reference file is given and `stat` succeeds on it, the pair
computed in `main` is the reference file's access and modification time,
whatever the flags `change_access_time` and `change_modification_time` are
and whether or not a timestamp string was given as well. -/
theorem resolve_times_reference (L : Libc) (w : World)
    (change_access_time change_modification_time no_create silent no_dereference : Bool)
    (timestamp : Option String) (reference_file : String) (option_index : Nat)
    (ref_stat : Stat) (h : stat w reference_file = some ref_stat) :
    resolve_times L ⟨change_access_time, change_modification_time, no_create, silent,
        no_dereference, timestamp, some reference_file, option_index⟩ w
      = .ret ⟨ref_stat.st_atime, ref_stat.st_mtime⟩ w := by
  simp [resolve_times, h]

/-- Witness for C4: the reference file `a` of the example world, with `-m`
and a timestamp string given as well. -/
theorem resolve_times_reference_witness :
    resolve_times demoLibc ⟨false, true, false, false, false, some "T", some "a", 0⟩ demoWorld
      = .ret ⟨1, 2⟩ demoWorld :=
  resolve_times_reference demoLibc demoWorld false true false false false (some "T") "a" 0
    ⟨true, 3, 1, 2⟩ (by decide)

/-- C5: without a reference file and with a timestamp string that parses to
the instant `T`, the resolved access time is `T` if `change_access_time` is
set and the reading of the clock otherwise, and the resolved modification
time is `T` if `change_modification_time` is set and the (next) reading of
the clock otherwise. -/
theorem resolve_times_explicit (L : Libc) (w : World)
    (change_access_time change_modification_time no_create silent no_dereference : Bool)
    (timestamp : String) (option_index : Nat) (tm : Tm) (T : Int)
    (hparse : parse_timestamp L timestamp = (true, tm))
    (hT : (L.mktime tm).1 = T) (hT2 : (L.mktime (L.mktime tm).2).1 = T) :
    ∃ w1, resolve_times L ⟨change_access_time, change_modification_time, no_create, silent,
        no_dereference, some timestamp, none, option_index⟩ w
      = .ret ⟨if change_access_time then T else w.clock w.ticks,
              if change_modification_time then T
              else w.clock (if change_access_time then w.ticks else w.ticks + 1)⟩ w1 ∧
      w1.fs = w.fs := by
  cases change_access_time <;> cases change_modification_time <;>
    simp [resolve_times, hparse, hT, hT2, time]

/-- Witness for C5: the string `T` with only `-m`: the modification time is
the parsed instant 500 and the access time is the clock reading 1000. -/
theorem resolve_times_explicit_witness :
    ∃ w1, resolve_times parsingLibc ⟨false, true, false, false, false, some "T", none, 0⟩
        demoWorld
      = .ret ⟨if false then 500 else demoWorld.clock demoWorld.ticks,
              if true then 500
              else demoWorld.clock (if false then demoWorld.ticks else demoWorld.ticks + 1)⟩ w1 ∧
      w1.fs = demoWorld.fs :=
  resolve_times_explicit parsingLibc demoWorld false true false false false "T" 0
    { Tm.zero with tm_sec := 500 } 500 (by decide) (by decide) (by decide)

/-- C6, the code at the failing input: `touch_file` on the symbolic link `l`
(to the file `f`) with `no_dereference` set leaves the link's own times 7 and
8 as they were and sets the times of `f` to the pair 10 and 20. -/
theorem touch_file_no_dereference_follows_link :
    (touch_file "l" false ⟨10, 20⟩ false true demoWorld).code = none ∧
    (touch_file "l" false ⟨10, 20⟩ false true demoWorld).world.fs "l"
      = some (.symlink "f" 7 8) ∧
    demoWorld.fs "f" = some (.file 5 3 4) ∧
    (touch_file "l" false ⟨10, 20⟩ false true demoWorld).world.fs "f"
      = some (.file 5 10 20) := by
  decide

/-- C7, the code at the failing input: with `silent` set and the update of
the times of `a` failing, the loop does not stop at `a`; it goes on, sets the
times of the later path `f`, and `main` ends with exit status 0. -/
theorem silent_utime_failure_goes_on :
    (utime deniedWorld "a" ⟨10, 20⟩).1 = -1 ∧
    (touch_loop false ⟨10, 20⟩ true false ["a", "f"] deniedWorld).code = none ∧
    (touch_loop false ⟨10, 20⟩ true false ["a", "f"] deniedWorld).world.fs "a"
      = some (.file 3 1 2) ∧
    (touch_loop false ⟨10, 20⟩ true false ["a", "f"] deniedWorld).world.fs "f"
      = some (.file 5 10 20) ∧
    (main demoLibc ["dutch", "-s", "a", "f"] deniedWorld).1 = 0 ∧
    (main demoLibc ["dutch", "-s", "a", "f"] deniedWorld).2.fs "f"
      = some (.file 5 1000 1001) := by
  decide

/-- C8, the code at the failing input: with `-s` and a timestamp string that
parses under neither format, `main` does not stop; it converts the `tm` that
`strptime` left behind, sets the times of the target `a` to that value and
ends with exit status 0. -/
theorem silent_unparsable_timestamp_goes_on :
    parse_timestamp demoLibc "garbage" = (false, Tm.zero) ∧
    (main demoLibc ["dutch", "-s", "-d", "garbage", "a"] demoWorld).1 = 0 ∧
    demoWorld.fs "a" = some (.file 3 1 2) ∧
    (main demoLibc ["dutch", "-s", "-d", "garbage", "a"] demoWorld).2.fs "a"
      = some (.file 3 0 0) ∧
    (main demoLibc ["dutch", "-d", "garbage", "a"] demoWorld).1 = 1 := by
  decide

/-- C9, the code at the failing input: `dutch -f file.txt` takes `file.txt`
as the argument of `-f`, is left without a target path and exits with status
1 creating nothing, whereas `dutch file.txt` creates `file.txt` and exits
with status 0. -/
theorem option_f_takes_an_argument :
    getopt_long ["dutch", "-f", "file.txt"] = ([⟨'f', some "file.txt", none⟩], []) ∧
    getopt_long ["dutch", "file.txt"] = ([], ["file.txt"]) ∧
    (main demoLibc ["dutch", "-f", "file.txt"] demoWorld).1 = 1 ∧
    (main demoLibc ["dutch", "-f", "file.txt"] demoWorld).2.fs "file.txt" = none ∧
    (main demoLibc ["dutch", "file.txt"] demoWorld).1 = 0 ∧
    (main demoLibc ["dutch", "file.txt"] demoWorld).2.fs "file.txt"
      = some (.file 0 1000 1001) := by
  decide

/-- C10, counterexample: after the option loop on `dutch -a -m x` both
`change_access_time` and `change_modification_time` are false. -/
theorem both_flags_cleared :
    ((parse_loop demoLibc (getopt_long ["dutch", "-a", "-m", "x"]).1 Vars.init
        demoWorld).val?.map
      (fun v => (v.change_access_time, v.change_modification_time)))
      = some (false, false) := by
  decide

/-- C2: for a path that does not exist (`stat` fails), in dereferencing mode
with `no_create` false, when the creation of the file and the update of its
times succeed, `touch_file` returns and leaves at the path an empty regular
file whose access and modification times are the resolved pair. -/
theorem touch_file_creates (filename : String) (new_times : Utimbuf) (silent : Bool)
    (w : World) (hmiss : stat w filename = none)
    (hcreate : (fopen_w w filename).1 = true)
    (hutime : (utime (fopen_w w filename).2 filename new_times).1 = 0) :
    ∃ w1, touch_file filename false new_times silent false w = .ret () w1 ∧
      stat w1 filename = some ⟨true, 0, new_times.actime, new_times.modtime⟩ := by
  refine ⟨(utime (fopen_w w filename).2 filename new_times).2, ?_, ?_⟩
  · simp [touch_file, hmiss, hcreate, hutime]
  · rcases hf : follow w.fs MAXSYMLINKS filename with _ | q
    · simp [fopen_w, hf] at hcreate
    · have hq : w.fs q = none := stat_eq_none w filename q hf hmiss
      have hl : link_target ((time w).2.fs q) = none := by
        show link_target (w.fs q) = none
        rw [hq]; rfl
      rw [fopen_w_missing w filename q hf hq] at hcreate hutime ⊢
      by_cases hd : w.deny_create q = true
      · simp [hd] at hcreate
      · simp only [hd, Bool.false_eq_true, if_false] at hutime ⊢
        have hf1 : follow ((time w).2.put q (.file 0 (time w).1 (time w).1)).fs
            MAXSYMLINKS filename = some q := by
          rw [follow_put _ _ _ _ _ hl]; exact hf
        have hq1 : ((time w).2.put q (.file 0 (time w).1 (time w).1)).fs q
            = some (.file 0 (time w).1 (time w).1) := by
          simp [World.put]
        unfold utime at hutime ⊢
        rw [set_times_file _ filename q 0 _ _ _ _ hf1 hq1] at hutime ⊢
        by_cases hu : ((time w).2.put q (.file 0 (time w).1 (time w).1)).deny_utime q = true
        · simp [hu] at hutime
        · simp only [hu, Bool.false_eq_true, if_false]
          exact stat_put _ filename q 0 _ _ hf1

/-- Witness for C2: the missing path `new` of the example world. -/
theorem touch_file_creates_witness :
    ∃ w1, touch_file "new" false ⟨10, 20⟩ false false demoWorld = .ret () w1 ∧
      stat w1 "new" = some ⟨true, 0, 10, 20⟩ :=
  touch_file_creates "new" ⟨10, 20⟩ false demoWorld (by decide) (by decide) (by decide)

/-- C1: in dereferencing mode, for every resolved pair and every list of
target paths, when every file-system call succeeds (each path resolves
within the limit on links, the times of the file it resolves to may be set,
and a missing file is to be created and may be created), the loop of `main`
over `touch_file` returns and afterwards every target path's file, the
referent when the path is a symbolic link, has access and modification time
equal to that one pair. -/
theorem touch_loop_stamps_all (new_times : Utimbuf) (paths : List String)
    (no_create silent : Bool) (w : World)
    (h : ∀ p ∈ paths, ∃ q, follow w.fs MAXSYMLINKS p = some q ∧ w.deny_utime q = false ∧
      (w.fs q = none → no_create = false ∧ w.deny_create q = false)) :
    ∃ w1, touch_loop no_create new_times silent false paths w = .ret () w1 ∧
      ∀ p ∈ paths, ∃ st, stat w1 p = some st ∧ st.st_atime = new_times.actime ∧
        st.st_mtime = new_times.modtime := by
  obtain ⟨w1, h1, _, s1⟩ := touch_loop_grows new_times no_create silent paths w h
  exact ⟨w1, h1, s1⟩

/-- Witness for C1: the paths `a`, `l` (a link to `f`), `new` (missing) and
`a` again in the example world. -/
theorem touch_loop_stamps_all_witness :
    ∃ w1, touch_loop false ⟨10, 20⟩ false false ["a", "l", "new", "a"] demoWorld
        = .ret () w1 ∧
      ∀ p ∈ ["a", "l", "new", "a"], ∃ st, stat w1 p = some st ∧
        st.st_atime = (⟨10, 20⟩ : Utimbuf).actime ∧
        st.st_mtime = (⟨10, 20⟩ : Utimbuf).modtime :=
  touch_loop_stamps_all ⟨10, 20⟩ ["a", "l", "new", "a"] false false demoWorld (by
    intro p hp
    simp only [List.mem_cons, List.mem_singleton, List.not_mem_nil, or_false] at hp
    rcases hp with rfl | rfl | rfl | rfl
    · exact ⟨"a", by decide, by decide, by decide⟩
    · exact ⟨"f", by decide, by decide, by decide⟩
    · exact ⟨"new", by decide, by decide, by decide⟩
    · exact ⟨"a", by decide, by decide, by decide⟩)

/-- C10, amended: after the option loop of `main`, `change_modification_time`
is false exactly when an access-only option (`-a`, `--access`,
`--time=access`) was processed, and `change_access_time` is false exactly
when a modify-only option (`-m`, `--modification`, `--time=modify`) was
processed; so both are false exactly when options of both kinds were given,
and at most one is false for every other argument vector. -/
theorem option_loop_flags (L : Libc) (argv : List String) (w : World) (v : Vars)
    (w1 : World)
    (h : parse_loop L (getopt_long argv).1 Vars.init w = .ret v w1) :
    (v.change_modification_time = false ↔
      ∃ r ∈ (getopt_long argv).1, r.access_only = true) ∧
    (v.change_access_time = false ↔
      ∃ r ∈ (getopt_long argv).1, r.modify_only = true) ∧
    ((v.change_access_time = false ∧ v.change_modification_time = false) ↔
      ((∃ r ∈ (getopt_long argv).1, r.access_only = true) ∧
        ∃ r ∈ (getopt_long argv).1, r.modify_only = true)) := by
  obtain ⟨a, b⟩ := parse_loop_flags L (getopt_long argv).1 Vars.init v w w1
    (getopt_scan_longind argv.tail false) h
  have a1 : v.change_modification_time = false ↔
      ∃ r ∈ (getopt_long argv).1, r.access_only = true := by
    rw [a]; simp [Vars.init]
  have b1 : v.change_access_time = false ↔
      ∃ r ∈ (getopt_long argv).1, r.modify_only = true := by
    rw [b]; simp [Vars.init]
  exact ⟨a1, b1, by rw [a1, b1, and_comm]⟩

/-- Witness for C10: the arguments `dutch -a x`. -/
theorem option_loop_flags_witness :
    ((⟨true, false, false, false, false, none, none, 0⟩ : Vars).change_modification_time
        = false ↔
      ∃ r ∈ (getopt_long ["dutch", "-a", "x"]).1, r.access_only = true) ∧
    ((⟨true, false, false, false, false, none, none, 0⟩ : Vars).change_access_time
        = false ↔
      ∃ r ∈ (getopt_long ["dutch", "-a", "x"]).1, r.modify_only = true) ∧
    (((⟨true, false, false, false, false, none, none, 0⟩ : Vars).change_access_time
          = false ∧
        (⟨true, false, false, false, false, none, none, 0⟩ : Vars).change_modification_time
          = false) ↔
      ((∃ r ∈ (getopt_long ["dutch", "-a", "x"]).1, r.access_only = true) ∧
        ∃ r ∈ (getopt_long ["dutch", "-a", "x"]).1, r.modify_only = true)) :=
  option_loop_flags demoLibc ["dutch", "-a", "x"] demoWorld
    ⟨true, false, false, false, false, none, none, 0⟩ demoWorld rfl

end Dutch
